import Mathlib

/-!
Verification of the identity/address reconciliation engine in
src/backend/verify_docs_fastapi.py (RealEstateX).

The Python endpoint is embedded shallowly:
- the OCR text extractor, spaCy entity extractor and Regrid registry client
  are external collaborators, modelled as explicit function arguments;
- Python strings are Lean Strings (ASCII behaviour of upper, strip, split);
- fuzzywuzzy.fuzz.partial_ratio is modelled after its pure-python backend
  (difflib.SequenceMatcher with no junk, which is the default when the
  optional C speedup is not installed), including the check_empty_string
  decorator that answers 0 when either argument is empty; exact rational
  arithmetic stands in for Python floats, with scores represented as
  numerator/denominator pairs;
- the address regex is embedded as a backtracking matcher specialised to the
  one pattern the source uses, with Python re.search leftmost semantics;
- JSON dictionaries from the registry are modelled as structures whose
  Option fields encode key presence.
-/

set_option maxRecDepth 4000

namespace VerifyDocs

/-- Python ASCII whitespace, as recognised by str.split, str.strip and
the regex class backslash-s on ASCII text. -/
def isPySpace (c : Char) : Bool :=
  c == ' ' || c == '\t' || c == '\n' || c == '\x0b' || c == '\x0c' || c == '\r'

/-- Python str.upper restricted to ASCII (String.map on the character
list; spelled out structurally so the kernel can evaluate it). -/
def pyUpper (s : String) : String := String.mk (s.data.map Char.toUpper)

/-- Python str.strip on a character list. -/
def pyStripL (l : List Char) : List Char :=
  ((l.dropWhile isPySpace).reverse.dropWhile isPySpace).reverse

/-- Python str.strip. -/
def pyStrip (s : String) : String := String.mk (pyStripL s.data)

/-- Worker for Python str.split with no separator: split on runs of
whitespace, discarding empty pieces.  The accumulator holds the current
token reversed. -/
def splitAux : List Char → List Char → List (List Char)
  | [], acc => if acc.isEmpty then [] else [acc.reverse]
  | c :: cs, acc =>
    if isPySpace c then
      if acc.isEmpty then splitAux cs [] else acc.reverse :: splitAux cs []
    else
      splitAux cs (c :: acc)

/-- Python str.split with no separator. -/
def pySplit (s : String) : List String := (splitAux s.data []).map String.mk

/-- Python substring containment (the in operator on strings). -/
def containsSub (hay needle : String) : Bool :=
  (List.range (hay.data.length + 1)).any fun i => needle.data.isPrefixOf (hay.data.drop i)

/-! ## difflib.SequenceMatcher and fuzzywuzzy partial ratio -/

/-- State of difflib find_longest_match: current best block. -/
structure FLMState where
  besti : Nat
  bestj : Nat
  bestsize : Nat
  deriving DecidableEq, Repr

/-- Positions j with blo <= j < bhi at which character c occurs in b,
in ascending order (difflib b2j restricted to the window). -/
def posList (b : List Char) (c : Char) (blo bhi : Nat) : List Nat :=
  (List.range b.length).filter fun j =>
    decide (blo ≤ j) && decide (j < bhi) && (b.getD j ' ' == c)

/-- Inner loop of difflib find_longest_match for one row i: walk the
occurrence positions of a[i] in b, extending diagonal chains recorded in the
old row map (j to chain length), building the new row map and updating the
best block.  Mirrors the j2len loop of the CPython source. -/
def flmProcessJ (i : Nat) : List Nat → List (Nat × Nat) → List (Nat × Nat) → FLMState →
    List (Nat × Nat) × FLMState
  | [], _, newm, st => (newm, st)
  | j :: js, oldm, newm, st =>
    let k := if j = 0 then 1 else (oldm.lookup (j - 1)).getD 0 + 1
    let st' := if st.bestsize < k then FLMState.mk (i + 1 - k) (j + 1 - k) k else st
    flmProcessJ i js oldm ((j, k) :: newm) st'

/-- Outer loop of difflib find_longest_match over the rows of the window. -/
def flmOuter (a b : List Char) (blo bhi : Nat) : List Nat → List (Nat × Nat) → FLMState → FLMState
  | [], _, st => st
  | i :: rest, oldm, st =>
    let r := flmProcessJ i (posList b (a.getD i ' ') blo bhi) oldm [] st
    flmOuter a b blo bhi rest r.1 r.2

/-- The first while loop after the DP in difflib find_longest_match: extend
the best block to the left over equal (non-junk; there is no junk here)
characters.  Fuel bounds the walk; it is called with enough fuel. -/
def extendLeft (a b : List Char) (alo blo : Nat) : Nat → FLMState → FLMState
  | 0, st => st
  | fuel + 1, st =>
    if decide (alo < st.besti) && decide (blo < st.bestj) &&
        (a.getD (st.besti - 1) ' ' == b.getD (st.bestj - 1) ' ') then
      extendLeft a b alo blo fuel (FLMState.mk (st.besti - 1) (st.bestj - 1) (st.bestsize + 1))
    else st

/-- The second while loop after the DP: extend the best block to the right. -/
def extendRight (a b : List Char) (ahi bhi : Nat) : Nat → FLMState → FLMState
  | 0, st => st
  | fuel + 1, st =>
    if decide (st.besti + st.bestsize < ahi) && decide (st.bestj + st.bestsize < bhi) &&
        (a.getD (st.besti + st.bestsize) ' ' == b.getD (st.bestj + st.bestsize) ' ') then
      extendRight a b ahi bhi fuel (FLMState.mk st.besti st.bestj (st.bestsize + 1))
    else st

/-- difflib SequenceMatcher find_longest_match on the window
[alo,ahi) x [blo,bhi), with no junk (the two junk extension loops of the
source are identities then and are omitted). -/
def findLongestMatch (a b : List Char) (alo ahi blo bhi : Nat) : FLMState :=
  let st := flmOuter a b blo bhi ((List.range ahi).drop alo) [] (FLMState.mk alo blo 0)
  let st' := extendLeft a b alo blo st.besti st
  extendRight a b ahi bhi (ahi + bhi + 1) st'

/-- difflib get_matching_blocks, recursively splitting around the longest
match; traversal order already yields the sorted order the source produces.
Python merges adjacent blocks afterwards; merging changes neither the total
matched size nor the set of block alignments (j - i offsets), which are the
only data consumed below, so it is not modelled.  Fuel bounds the recursion
depth; the window total shrinks at every call, so the initial fuel of
length a + length b + 1 is sufficient. -/
def mbAux (a b : List Char) : Nat → Nat → Nat → Nat → Nat → List (Nat × Nat × Nat)
  | 0, _, _, _, _ => []
  | fuel + 1, alo, ahi, blo, bhi =>
    let st := findLongestMatch a b alo ahi blo bhi
    if st.bestsize = 0 then []
    else
      (if decide (alo < st.besti) && decide (blo < st.bestj) then
        mbAux a b fuel alo st.besti blo st.bestj
      else []) ++
      (st.besti, st.bestj, st.bestsize) ::
      (if decide (st.besti + st.bestsize < ahi) && decide (st.bestj + st.bestsize < bhi) then
        mbAux a b fuel (st.besti + st.bestsize) ahi (st.bestj + st.bestsize) bhi
      else [])

/-- difflib get_matching_blocks including the final sentinel block. -/
def matchingBlocks (a b : List Char) : List (Nat × Nat × Nat) :=
  mbAux a b (a.length + b.length + 1) 0 a.length 0 b.length ++ [(a.length, b.length, 0)]

/-- Total number of matched characters, as summed by difflib ratio. -/
def matchSum (a b : List Char) : Nat :=
  ((matchingBlocks a b).map fun t => t.2.2).sum

/-- difflib ratio as an exact fraction: 2 * M / (len a + len b), or 1 when
both inputs are empty.  Represented as a numerator/denominator pair with a
positive denominator. -/
def ratioPair (a b : List Char) : Nat × Nat :=
  let t := a.length + b.length
  if t = 0 then (1, 1) else (2 * matchSum a b, t)

/-- Python round, round-half-to-even, applied to 100 * num / den, as in
fuzzywuzzy utils.intr composed with the final score scaling. -/
def intr100 (num den : Nat) : Nat :=
  let q := 100 * num
  let f := q / den
  let r := q % den
  if 2 * r < den then f
  else if den < 2 * r then f + 1
  else if f % 2 = 0 then f else f + 1

/-- The candidate scores of fuzzywuzzy partial_ratio: for every matching
block of (shorter, longer), the ratio of shorter against the length-matched
slice of longer starting at the block alignment offset.  Nat subtraction
realises the max(long_start, 0) clamp of the source. -/
def scoreList (shorter longer : List Char) : List (Nat × Nat) :=
  (matchingBlocks shorter longer).map fun blk =>
    let ls := blk.2.1 - blk.1
    ratioPair shorter ((longer.drop ls).take shorter.length)

/-- fuzzywuzzy fuzz.partial_ratio (difflib backend): the check_empty_string
decorator returns 0 when either argument is empty; otherwise 100 if any
candidate ratio exceeds 0.995, else the rounded best candidate ratio scaled
to 100.  The source early-returns inside its loop; taking any-over-the-list
first is equivalent because the result is 100 in both cases. -/
def fuzz_score (s1 s2 : String) : Nat :=
  if s1.data.length = 0 || s2.data.length = 0 then 0
  else
    let p := if s1.data.length ≤ s2.data.length then (s1.data, s2.data) else (s2.data, s1.data)
    let scores := scoreList p.1 p.2
    if scores.any (fun r => 199 * r.2 < 200 * r.1) then 100
    else
      let best := scores.foldl (fun acc r => if acc.1 * r.2 < r.1 * acc.2 then r else acc) (0, 1)
      intr100 best.1 best.2

/-! ## Name matcher -/

/-- First characters of a list of words, none when some word is empty
(structural recursion standing in for mapM over Option). -/
def headsOpt : List (List Char) → Option (List Char)
  | [] => some []
  | t :: ts =>
    match t.head?, headsOpt ts with
    | some c, some cs => some (c :: cs)
    | _, _ => none

/-- The initials computation of is_name_match: first character of every
whitespace-separated word.  Python indexes part[0], which raises on an empty
part; head? makes that partiality explicit, so the result is an Option. -/
def initialsOpt (s : String) : Option (List Char) :=
  headsOpt (splitAux s.data [])

/-- is_name_match from the source, with the part[0] indexing partiality kept
explicit (none would be an IndexError in Python).  Inputs that are empty
strings are falsy in Python and hit the early guard. -/
def is_name_matchO (ocr_name regrid_name : String) (threshold : Nat) : Option Bool :=
  if ocr_name == "" || regrid_name == "" then some false
  else
    let o := pyUpper (pyStrip ocr_name)
    let r := pyUpper (pyStrip regrid_name)
    if threshold ≤ fuzz_score o r then some true
    else
      match initialsOpt o, initialsOpt r with
      | some oi, some ri => some (oi == ri)
      | _, _ => none

/-- is_name_match as the Bool the source in fact always returns. -/
def is_name_match (ocr_name regrid_name : String) (threshold : Nat) : Bool :=
  (is_name_matchO ocr_name regrid_name threshold).getD false

/-! ## Entity extraction (spaCy is a collaborator) -/

/-- extract_owners_with_spacy: the spaCy pipeline is a collaborator giving
the ordered (entity text, entity label) pairs; the source keeps PERSON
entities with at least two words and uppercases them. -/
def extract_owners_with_spacy (ner : String → List (String × String)) (text : String) :
    List String :=
  ((ner text).filter fun e => e.2 == "PERSON" && decide (2 ≤ (pySplit e.1).length)).map
    fun e => pyUpper e.1

/-! ## Address regex -/

/-- The closed street-type vocabulary of the source regex alternation, in
source order (the order decides which alternative matches first). -/
def STREET_TYPES : List String :=
  ["RD", "ST", "AVE", "DR", "LN", "BLVD", "ROAD", "LANE", "COURT",
   "PL", "PLACE", "TRAIL", "WAY", "CIR", "CIRCLE", "PKWY", "PARKWAY"]

/-- The regex character class of the middle segment: uppercase letters,
digits, whitespace, hyphen. -/
def isAddrChar (c : Char) : Bool :=
  (decide ('A' ≤ c) && decide (c ≤ 'Z')) || c.isDigit || isPySpace c || c == '-'

/-- Descending range [hi, hi-1, ..., lo]; empty when hi < lo.  Backtracking
of a greedy quantifier tries the longest extent first. -/
def descRange (lo hi : Nat) : List Nat := (List.range' lo (hi + 1 - lo)).reverse

/-- The regex alternation of street types at position p: first alternative,
in source order, that is a literal prefix of the remaining text; returns the
end position of the whole match. -/
def streetTypeEnd (s : List Char) (p : Nat) : Option Nat :=
  STREET_TYPES.findSome? fun t =>
    if t.data.isPrefixOf (s.drop p) then some (p + t.data.length) else none

/-- The source regex, anchored at position i, with Python backtracking
semantics: 2 to 6 digits (greedy), one or more whitespace characters
(greedy), one or more middle-class characters (greedy), then the street-type
alternation.  Returns the end position of the match the engine produces. -/
def matchAt (s : List Char) (i : Nat) : Option Nat :=
  let nd := ((s.drop i).takeWhile Char.isDigit).length
  (descRange 2 (min nd 6)).findSome? fun d =>
    let nw := ((s.drop (i + d)).takeWhile isPySpace).length
    (descRange 1 nw).findSome? fun w =>
      let nm := ((s.drop (i + d + w)).takeWhile isAddrChar).length
      (descRange 1 nm).findSome? fun m =>
        streetTypeEnd s (i + d + w + m)

/-- re.search position scan: try each start position in ascending order. -/
def searchFrom (s : List Char) : Nat → Nat → Option (Nat × Nat)
  | 0, _ => none
  | fuel + 1, i =>
    match matchAt s i with
    | some e => some (i, e)
    | none => searchFrom s fuel (i + 1)

/-- re.search of the source address pattern over text u, returning group(0)
of the leftmost match. -/
def re_search_address (u : String) : Option String :=
  match searchFrom u.data (u.data.length + 1) 0 with
  | some (i, e) => some (String.mk ((u.data.drop i).take (e - i)))
  | none => none

/-! ## Registry data model and the verify endpoint -/

/-- The fields dictionary of a Regrid feature; Option encodes key presence,
matching the dict.get defaulting of the source. -/
structure Fields where
  owner : Option String
  address : Option String
  scity : Option String
  szip : Option String
  szip5 : Option String
  saddno : Option String
  saddstr : Option String
  saddsttyp : Option String
  parval : Option Int
  landval : Option Int
  improvval : Option Int
  deriving DecidableEq, Repr

/-- One entry of the enhanced_ownership list; eo_owner is some v exactly
when the key is present. -/
structure EnhancedEntry where
  eo_owner : Option String
  deriving DecidableEq, Repr

/-- One feature of the Regrid response. -/
structure Feature where
  fields : Fields
  enhanced_ownership : List EnhancedEntry
  deriving DecidableEq, Repr

/-- The registry client response: HTTP status and the parcels.features
array of the JSON body. -/
structure RegridResponse where
  status_code : Nat
  features : List Feature
  deriving DecidableEq, Repr

/-- The valuation block of the response payload. -/
structure Valuation where
  total_value : Int
  land_value : Int
  improvement_value : Int
  deriving DecidableEq, Repr

/-- The JSON payload of a successful verification; match_flag carries the
"match" key (match is a Lean keyword). -/
structure MatchPayload where
  match_flag : Bool
  deed_address_match : Bool
  extracted_deed_names : List String
  extracted_id_names : List String
  matched_name_from_deed : Option String
  matched_name_from_id : Option String
  owner_name_match_from_deed : Bool
  owner_name_match_from_id : Bool
  regrid_owner : String
  regrid_address : String
  valuation : Valuation
  deriving DecidableEq, Repr

/-- The endpoint result: a JSONResponse with an error status, a "match"
flag and an "error" message, or the 200 payload. -/
inductive VerifyResponse where
  | errorResp (status : Nat) (match_flag : Bool) (error : String)
  | ok (payload : MatchPayload)
  deriving DecidableEq, Repr

/-- The registry owner the source derives: the eo_owner of the first
enhanced_ownership entry when that list is nonempty and the key is present,
else the base owner field defaulted to the empty string. -/
def regridOwnerOf (feat : Feature) : String :=
  match feat.enhanced_ownership with
  | e :: _ =>
    match e.eo_owner with
    | some v => v
    | none => feat.fields.owner.getD ""
  | [] => feat.fields.owner.getD ""

/-- First candidate name matching the registry owner, as the source's
next(...) over a generator with default None. -/
def matchedNameOf (names : List String) (owner : String) : Option String :=
  names.find? fun n => is_name_match n owner 70

/-- The matched_tokens list comprehension of the source: address tokens that
are truthy (nonempty) and occur uppercased in the uppercased deed text. -/
def matchedTokensOf (address_tokens : List String) (deed_text_upper : String) : List String :=
  address_tokens.filter fun tok => (!(tok == "")) && containsSub deed_text_upper (pyUpper tok)

/-- Assembly of the 200 payload from the deed text, the two extracted name
lists and the first registry feature, exactly as lines 103-151 of the
source compute it. -/
def buildPayload (deed_text : String) (deed_owner_names id_owner_names : List String)
    (feat : Feature) : MatchPayload :=
  let fields := feat.fields
  let regrid_owner := regridOwnerOf feat
  let regrid_address :=
    fields.address.getD "" ++ ", " ++ fields.scity.getD "" ++ ", " ++ fields.szip.getD ""
  let matched_id_name := matchedNameOf id_owner_names regrid_owner
  let matched_deed_name := matchedNameOf deed_owner_names regrid_owner
  let address_tokens :=
    [fields.saddno.getD "", fields.saddstr.getD "", fields.saddsttyp.getD "",
     fields.scity.getD "", fields.szip5.getD ""]
  let deed_text_upper := pyUpper deed_text
  let matched_tokens := matchedTokensOf address_tokens deed_text_upper
  let deed_address_match := decide (3 ≤ matched_tokens.length)
  let valuation :=
    Valuation.mk (fields.parval.getD 0) (fields.landval.getD 0) (fields.improvval.getD 0)
  let match_result := deed_address_match && (matched_deed_name.isSome || matched_id_name.isSome)
  MatchPayload.mk match_result deed_address_match deed_owner_names id_owner_names
    matched_deed_name matched_id_name matched_deed_name.isSome matched_id_name.isSome
    regrid_owner regrid_address valuation

/-- The body of the verify endpoint after both texts were extracted: entity
extraction, address regex, registry lookup (the jurisdiction path is a fixed
constant, so the client is keyed by the query string only), then either an
error response or the assembled payload. -/
def verifyCore (deed_text id_text : String) (ner : String → List (String × String))
    (regrid : String → RegridResponse) : VerifyResponse :=
  match re_search_address (pyUpper deed_text) with
  | none => .errorResp 400 false "Address not found in deed text"
  | some extracted_address =>
    if (regrid extracted_address).status_code ≠ 200 then
      .errorResp 500 false "Failed to fetch parcel from Regrid"
    else
      match (regrid extracted_address).features with
      | [] => .errorResp 404 false "No parcel found for the given address"
      | feat :: _ =>
        .ok (buildPayload deed_text (extract_owners_with_spacy ner deed_text)
          (extract_owners_with_spacy ner id_text) feat)

/-- The whole endpoint including the try/except: the two OCR extractions
are collaborator calls that may raise (Except.error); an exception anywhere
in the try block is answered with status 500, match false and the exception
message.  The deed is extracted before the ID, as in the source. -/
def verify (deed_ocr id_ocr : Except String String) (ner : String → List (String × String))
    (regrid : String → RegridResponse) : VerifyResponse :=
  match deed_ocr with
  | .error e => .errorResp 500 false e
  | .ok deed_text =>
    match id_ocr with
    | .error e => .errorResp 500 false e
    | .ok id_text => verifyCore deed_text id_text ner regrid

/-! ## Spec-side pattern descriptions for the address locator -/

/-- The amended description of what the source regex accepts: 2 to 6
digits, then one or more whitespace characters, then a nonempty run of
middle-class characters, then one of the street-type strings. -/
def addrPattern (r : List Char) : Prop :=
  ∃ ds ws ms t, r = ds ++ ws ++ ms ++ String.data t ∧
    2 ≤ ds.length ∧ ds.length ≤ 6 ∧ (∀ c ∈ ds, Char.isDigit c) ∧
    ws ≠ [] ∧ (∀ c ∈ ws, isPySpace c) ∧
    ms ≠ [] ∧ (∀ c ∈ ms, isAddrChar c) ∧
    t ∈ STREET_TYPES

/-- Some substring matching the amended pattern starts at position i. -/
def addrPatternAt (s : List Char) (i : Nat) : Prop :=
  ∃ r, r <+: s.drop i ∧ addrPattern r

/-- A segment check: the slice of length y at offset x exists and all its
characters satisfy P. -/
def segAll (P : Char → Bool) (s : List Char) (x y : Nat) : Bool :=
  decide (((s.drop x).take y).length = y) && ((s.drop x).take y).all P

/-- The claim as stated (weakest reading): the middle segment must contain
at least one non-whitespace character, i.e. at least one fragment of an
actual alphanumeric-or-hyphen token, before the street-type occurrence. -/
def claimMatchAt (s : List Char) (i : Nat) : Bool :=
  (List.range' 2 5).any fun d =>
    segAll Char.isDigit s i d &&
    (List.range' 1 s.length).any fun w =>
      segAll isPySpace s (i + d) w &&
      (List.range' 1 s.length).any fun m =>
        segAll isAddrChar s (i + d + w) m &&
        ((s.drop (i + d + w)).take m).any (fun c => !isPySpace c) &&
        STREET_TYPES.any fun t => t.data.isPrefixOf (s.drop (i + d + w + m))

/-- Whether the claim-as-stated pattern occurs anywhere in the text. -/
def claimPatternAnywhere (s : String) : Bool :=
  (List.range (s.data.length + 1)).any fun i => claimMatchAt s.data i

/-! ## Concrete fixtures used by witnesses -/

/-- Registry fields of the demonstration parcel. -/
def demoFields : Fields :=
  Fields.mk (some "JOHN SMITH") (some "77 OAK ST") (some "DALLAS") (some "75201")
    (some "75201") (some "77") (some "OAK") (some "ST") (some 1000) (some 600) (some 400)

/-- Demonstration feature with no enhanced ownership. -/
def demoFeature : Feature := Feature.mk demoFields []

/-- Demonstration entity extractor: one two-word PERSON entity. -/
def demoNer : String → List (String × String) := fun _ => [("John Smith", "PERSON")]

/-- Demonstration registry client: success with a single feature. -/
def demoRegrid : String → RegridResponse := fun _ => RegridResponse.mk 200 [demoFeature]

/-- Demonstration deed text. -/
def demoDeed : String := "77 OAK ST DALLAS 75201"

/-- The payload the demonstration run produces. -/
def demoPayload : MatchPayload :=
  buildPayload demoDeed ["JOHN SMITH"] ["JOHN SMITH"] demoFeature

/-! ## Lemmas: split tokens are nonempty, initials always defined -/

/-- Every token produced by the split worker is nonempty. -/
theorem splitAux_ne_nil : ∀ (cs acc : List Char), ∀ l ∈ splitAux cs acc, l ≠ [] := by
  intro cs
  induction cs with
  | nil =>
    intro acc l hl
    by_cases h : acc.isEmpty
    · simp [splitAux, h] at hl
    · simp [splitAux, h] at hl
      subst hl
      simpa [List.isEmpty_iff] using h
  | cons c cs ih =>
    intro acc l hl
    by_cases hsp : isPySpace c
    · by_cases h : acc.isEmpty
      · simp [splitAux, hsp, h] at hl
        exact ih [] l hl
      · simp [splitAux, hsp, h] at hl
        rcases hl with hl | hl
        · subst hl
          simpa [List.isEmpty_iff] using h
        · exact ih [] l hl
    · simp [splitAux, hsp] at hl
      exact ih (c :: acc) l hl

/-- headsOpt succeeds when every word is nonempty. -/
theorem headsOpt_isSome :
    ∀ (l : List (List Char)), (∀ x ∈ l, x ≠ []) → (headsOpt l).isSome := by
  intro l
  induction l with
  | nil => intro _; simp [headsOpt]
  | cons a t ih =>
    intro h
    obtain ⟨c, cs, rfl⟩ : ∃ c cs, a = c :: cs := by
      cases a with
      | nil => exact absurd rfl (h [] (List.mem_cons_self _ _))
      | cons c cs => exact ⟨c, cs, rfl⟩
    obtain ⟨bs, hbs⟩ :=
      Option.isSome_iff_exists.mp (ih fun x hx => h x (List.mem_cons_of_mem _ hx))
    simp [headsOpt, hbs]

/-- The initials computation never hits the part[0] failure: split tokens
are nonempty, so head? is always some. -/
theorem initialsOpt_isSome (s : String) : (initialsOpt s).isSome := by
  apply headsOpt_isSome
  intro x hx
  exact splitAux_ne_nil s.data [] x hx

/-- Claim C10: is_name_match is total on strings: for every pair of inputs
and every threshold the Python function returns a boolean without raising,
because the empty-input guard returns early and whitespace splitting never
yields an empty token, so the first-character indexing in the initials
computation never fails (the embedded is_name_matchO is none exactly where
the Python code would raise). -/
theorem is_name_match_total (a b : String) (threshold : Nat) :
    (is_name_matchO a b threshold).isSome := by
  by_cases hg : (a == "" || b == "") = true
  · simp [is_name_matchO, hg]
  · obtain ⟨oi, hoi⟩ := Option.isSome_iff_exists.mp (initialsOpt_isSome (pyUpper (pyStrip a)))
    obtain ⟨ri, hri⟩ := Option.isSome_iff_exists.mp (initialsOpt_isSome (pyUpper (pyStrip b)))
    simp only [is_name_matchO, hg, if_false, Bool.false_eq_true]
    split
    · simp
    · rw [hoi, hri]
      simp

/-! ## Name matcher tiers -/

/-- Claim C3: the name matcher with threshold 70 returns false when either
input is empty; otherwise it trims and uppercases both inputs, returns true
when the partial fuzzy score reaches the threshold, and otherwise returns
the exact equality of the two initials strings. -/
theorem name_matcher_tiers (a b : String) :
    ((a = "" ∨ b = "") → is_name_match a b 70 = false) ∧
    (a ≠ "" → b ≠ "" → 70 ≤ fuzz_score (pyUpper (pyStrip a)) (pyUpper (pyStrip b)) →
      is_name_match a b 70 = true) ∧
    (a ≠ "" → b ≠ "" → fuzz_score (pyUpper (pyStrip a)) (pyUpper (pyStrip b)) < 70 →
      is_name_match a b 70 =
        decide (initialsOpt (pyUpper (pyStrip a)) = initialsOpt (pyUpper (pyStrip b)))) := by
  refine ⟨?_, ?_, ?_⟩
  · rintro (rfl | rfl) <;> simp [is_name_match, is_name_matchO]
  · intro ha hb hscore
    have hg : (a == "" || b == "") = false := by
      simp only [Bool.or_eq_false_iff, beq_eq_false_iff_ne, ne_eq]
      exact ⟨ha, hb⟩
    simp [is_name_match, is_name_matchO, hg, hscore]
  · intro ha hb hscore
    have hg : (a == "" || b == "") = false := by
      simp only [Bool.or_eq_false_iff, beq_eq_false_iff_ne, ne_eq]
      exact ⟨ha, hb⟩
    obtain ⟨oi, hoi⟩ := Option.isSome_iff_exists.mp (initialsOpt_isSome (pyUpper (pyStrip a)))
    obtain ⟨ri, hri⟩ := Option.isSome_iff_exists.mp (initialsOpt_isSome (pyUpper (pyStrip b)))
    simp only [is_name_match, is_name_matchO, hg, Bool.false_eq_true, if_false, hoi, hri,
      Nat.not_le_of_lt hscore, Option.getD_some]
    by_cases h : oi = ri <;> simp [h, hoi, hri]

/-- Witness for C3 at a concrete input: identical nonempty names match
through the fuzzy tier. -/
theorem name_matcher_tiers_witness : is_name_match "AB CD" "AB CD" 70 = true :=
  (name_matcher_tiers "AB CD" "AB CD").2.1 (by decide) (by decide) (by decide)

/-- Claim C7: on the concrete spec vectors, JOHN A SMITH vs SMITH JOHN A is
rejected (fuzzy score 67 is below 70 and the initials JAS and SJA differ,
initials being order-sensitive), while ROBERT JONES vs ROBERT JONES is
accepted through the fuzzy tier (score 100). -/
theorem name_matcher_spec_vectors :
    is_name_match "JOHN A SMITH" "SMITH JOHN A" 70 = false ∧
    fuzz_score "JOHN A SMITH" "SMITH JOHN A" < 70 ∧
    initialsOpt "JOHN A SMITH" ≠ initialsOpt "SMITH JOHN A" ∧
    is_name_match "ROBERT JONES" "ROBERT JONES" 70 = true ∧
    70 ≤ fuzz_score "ROBERT JONES" "ROBERT JONES" := by
  exact ⟨by decide, by decide, by decide, by decide, by decide⟩

/-! ## Pipeline inversion and the fusion, selection, reconciliation claims -/

/-- Inversion of a successful run: a success determines the extracted
address, a 200 registry status, a nonempty feature list and the payload
built from its first feature. -/
theorem verifyCore_ok_inv {dt it : String} {ner : String → List (String × String)}
    {rg : String → RegridResponse} {p : MatchPayload}
    (h : verifyCore dt it ner rg = .ok p) :
    ∃ addr f rest, re_search_address (pyUpper dt) = some addr ∧
      (rg addr).status_code = 200 ∧ (rg addr).features = f :: rest ∧
      p = buildPayload dt (extract_owners_with_spacy ner dt)
            (extract_owners_with_spacy ner it) f := by
  unfold verifyCore at h
  cases haddr : re_search_address (pyUpper dt) with
  | none => rw [haddr] at h; exact absurd h (by simp)
  | some addr =>
    rw [haddr] at h
    dsimp only at h
    by_cases hst : (rg addr).status_code ≠ 200
    · rw [if_pos hst] at h; exact absurd h (by simp)
    · rw [if_neg hst] at h
      cases hfeat : (rg addr).features with
      | nil => rw [hfeat] at h; exact absurd h (by simp)
      | cons f rest =>
        rw [hfeat] at h
        have hp := (VerifyResponse.ok.injEq _ _).mp h
        exact ⟨addr, f, rest, rfl, not_ne_iff.mp hst, hfeat, hp.symm⟩

/-- Claim C1: for every request that reaches decision fusion the verdict is
addressMatch AND (nameMatchFromDeed OR nameMatchFromId); in particular a
false addressMatch forces a false verdict, and a true addressMatch with the
ID name matching forces a true verdict. -/
theorem fusion_verdict (dt it : String) (ner : String → List (String × String))
    (rg : String → RegridResponse) (p : MatchPayload)
    (h : verifyCore dt it ner rg = .ok p) :
    p.match_flag =
      (p.deed_address_match && (p.owner_name_match_from_deed || p.owner_name_match_from_id)) ∧
    (p.deed_address_match = false → p.match_flag = false) ∧
    (p.deed_address_match = true → p.owner_name_match_from_id = true →
      p.match_flag = true) := by
  obtain ⟨addr, f, rest, _, _, _, rfl⟩ := verifyCore_ok_inv h
  set dn := extract_owners_with_spacy ner dt
  set idn := extract_owners_with_spacy ner it
  have h1 : (buildPayload dt dn idn f).match_flag =
      ((buildPayload dt dn idn f).deed_address_match &&
        ((buildPayload dt dn idn f).owner_name_match_from_deed ||
          (buildPayload dt dn idn f).owner_name_match_from_id)) := rfl
  refine ⟨h1, fun hd => ?_, fun hd hid => ?_⟩
  · rw [h1, hd]; rfl
  · rw [h1, hd, hid]; simp

/-- Witness for C1: the demonstration run satisfies the fusion equation. -/
theorem fusion_verdict_witness :
    demoPayload.match_flag =
      (demoPayload.deed_address_match &&
        (demoPayload.owner_name_match_from_deed || demoPayload.owner_name_match_from_id)) :=
  (fusion_verdict demoDeed "ID TEXT" demoNer demoRegrid demoPayload (by rfl)).1

/-- Claim C9: verify is deterministic: with identical byte inputs (hence
identical OCR outcomes) and extensionally identical collaborator responses,
the two runs produce identical results. -/
theorem verify_deterministic (dE iE : Except String String)
    (ner ner' : String → List (String × String)) (rg rg' : String → RegridResponse)
    (hn : ∀ t, ner t = ner' t) (hr : ∀ q, rg q = rg' q) :
    verify dE iE ner rg = verify dE iE ner' rg' := by
  rw [funext hn, funext hr]

/-- Witness for C9 at the demonstration collaborators. -/
theorem verify_deterministic_witness :
    verify (Except.ok demoDeed) (Except.ok "ID TEXT") demoNer demoRegrid =
      verify (Except.ok demoDeed) (Except.ok "ID TEXT") demoNer demoRegrid :=
  verify_deterministic _ _ _ _ _ _ (fun _ => rfl) (fun _ => rfl)

/-- Claim C5: each stage failure is surfaced immediately with its own
taxonomy kind and a false match flag: no regex match gives the 400
address-not-found response and the registry client is never consulted (the
result does not depend on it); a non-200 registry status gives the 500
registry response; a 200 response with no features gives the 404 parcel
response; an extraction exception gives the 500 response carrying the
exception message; and every error response carries match = false. -/
theorem error_taxonomy (dt it emsg : String) (ner : String → List (String × String))
    (rg rg' : String → RegridResponse) (idE : Except String String) :
    (re_search_address (pyUpper dt) = none →
      verifyCore dt it ner rg = .errorResp 400 false "Address not found in deed text" ∧
      verifyCore dt it ner rg = verifyCore dt it ner rg') ∧
    (∀ addr, re_search_address (pyUpper dt) = some addr → (rg addr).status_code ≠ 200 →
      verifyCore dt it ner rg = .errorResp 500 false "Failed to fetch parcel from Regrid") ∧
    (∀ addr, re_search_address (pyUpper dt) = some addr → (rg addr).status_code = 200 →
      (rg addr).features = [] →
      verifyCore dt it ner rg = .errorResp 404 false "No parcel found for the given address") ∧
    (verify (Except.error emsg) idE ner rg = .errorResp 500 false emsg) ∧
    (verify (Except.ok dt) (Except.error emsg) ner rg = .errorResp 500 false emsg) ∧
    (∀ st m msg, verify (Except.ok dt) (Except.ok it) ner rg = .errorResp st m msg →
      m = false) := by
  refine ⟨?_, ?_, ?_, rfl, rfl, ?_⟩
  · intro h
    constructor
    · unfold verifyCore; rw [h]
    · unfold verifyCore; rw [h]
  · intro addr h hst
    unfold verifyCore
    rw [h]
    dsimp only
    rw [if_pos hst]
  · intro addr h hst hfeat
    unfold verifyCore
    rw [h]
    dsimp only
    rw [if_neg (not_ne_iff.mpr hst), hfeat]
  · intro st m msg h
    have h' : verifyCore dt it ner rg = .errorResp st m msg := h
    unfold verifyCore at h'
    cases haddr : re_search_address (pyUpper dt) with
    | none => rw [haddr] at h'; cases h'; rfl
    | some addr =>
      rw [haddr] at h'
      dsimp only at h'
      by_cases hst2 : (rg addr).status_code ≠ 200
      · rw [if_pos hst2] at h'; cases h'; rfl
      · rw [if_neg hst2] at h'
        cases hfeat : (rg addr).features with
        | nil => rw [hfeat] at h'; cases h'; rfl
        | cons f rest => rw [hfeat] at h'; exact absurd h' (by simp)

/-- Witness for C5: the spec's no-address scenario: deed text Sale
completed. yields the 400 response with match false. -/
theorem error_taxonomy_witness :
    verifyCore "Sale completed." "ID TEXT" demoNer demoRegrid =
      .errorResp 400 false "Address not found in deed text" :=
  ((error_taxonomy "Sale completed." "ID TEXT" "" demoNer demoRegrid demoRegrid
    (Except.ok "")).1 (by rfl)).1

/-- Claim C2: the address reconciler counts the five registry tokens that
are nonempty and occur (uppercased) as raw substrings of the uppercased
deed text, and reports a match exactly when at least 3 of the 5 are
present; on the spec's boundary vectors, three present tokens match and two
do not. -/
theorem address_reconciler :
    (∀ (tokens : List String) (du : String),
      3 ≤ (matchedTokensOf tokens du).length ↔
        3 ≤ tokens.countP fun tok => (!(tok == "")) && containsSub du (pyUpper tok)) ∧
    (∀ (dt it : String) (ner : String → List (String × String))
      (rg : String → RegridResponse) (p : MatchPayload),
      verifyCore dt it ner rg = .ok p →
      ∃ addr f rest, re_search_address (pyUpper dt) = some addr ∧
        (rg addr).features = f :: rest ∧
        p.deed_address_match = decide (3 ≤ (matchedTokensOf
          [f.fields.saddno.getD "", f.fields.saddstr.getD "", f.fields.saddsttyp.getD "",
           f.fields.scity.getD "", f.fields.szip5.getD ""] (pyUpper dt)).length)) ∧
    (3 ≤ (matchedTokensOf ["123", "MAIN", "ST", "DALLAS", "75201"] "123 MAIN ST").length) ∧
    ¬ 3 ≤ (matchedTokensOf ["123", "MAIN", "ST", "DALLAS", "75201"] "123 MAIN").length := by
  refine ⟨?_, ?_, by decide, by decide⟩
  · intro tokens du
    rw [List.countP_eq_length_filter]
    exact Iff.rfl
  · intro dt it ner rg p h
    obtain ⟨addr, f, rest, ha, _, hf, rfl⟩ := verifyCore_ok_inv h
    exact ⟨addr, f, rest, ha, hf, rfl⟩

/-- Witness for C2: the demonstration run exposes the 3-of-5 decision. -/
theorem address_reconciler_witness :
    ∃ addr f rest, re_search_address (pyUpper demoDeed) = some addr ∧
      (demoRegrid addr).features = f :: rest ∧
      demoPayload.deed_address_match = decide (3 ≤ (matchedTokensOf
        [f.fields.saddno.getD "", f.fields.saddstr.getD "", f.fields.saddsttyp.getD "",
         f.fields.scity.getD "", f.fields.szip5.getD ""] (pyUpper demoDeed)).length) :=
  address_reconciler.2.1 demoDeed "ID TEXT" demoNer demoRegrid demoPayload (by rfl)

/-- Claim C6: candidate selection is first-match: the selected name is the
first list entry the matcher accepts against the registry owner, null when
none is accepted, and an empty candidate list yields a false name-match
flag without any failure; the payload fields are exactly these selections. -/
theorem candidate_selection (names : List String) (owner : String) :
    (matchedNameOf [] owner = none) ∧
    (∀ n, matchedNameOf names owner = some n ↔
      (is_name_match n owner 70 = true ∧
        ∃ pre post, names = pre ++ n :: post ∧
          ∀ m ∈ pre, is_name_match m owner 70 = false)) ∧
    (∀ (dt it : String) (ner : String → List (String × String))
      (rg : String → RegridResponse) (p : MatchPayload),
      verifyCore dt it ner rg = .ok p →
      p.matched_name_from_id = matchedNameOf p.extracted_id_names p.regrid_owner ∧
      p.matched_name_from_deed = matchedNameOf p.extracted_deed_names p.regrid_owner ∧
      p.owner_name_match_from_id = p.matched_name_from_id.isSome ∧
      p.owner_name_match_from_deed = p.matched_name_from_deed.isSome ∧
      (p.extracted_id_names = [] → p.owner_name_match_from_id = false)) := by
  refine ⟨rfl, ?_, ?_⟩
  · intro n
    unfold matchedNameOf
    rw [List.find?_eq_some]
    constructor
    · rintro ⟨hp, pre, post, rfl, hall⟩
      exact ⟨hp, pre, post, rfl, fun m hm => by simpa using hall m hm⟩
    · rintro ⟨hp, pre, post, rfl, hall⟩
      exact ⟨hp, pre, post, rfl, fun m hm => by simp [hall m hm]⟩
  · intro dt it ner rg p h
    obtain ⟨addr, f, rest, _, _, _, rfl⟩ := verifyCore_ok_inv h
    refine ⟨rfl, rfl, rfl, rfl, fun hempty => ?_⟩
    have hflag : (buildPayload dt (extract_owners_with_spacy ner dt)
        (extract_owners_with_spacy ner it) f).owner_name_match_from_id =
        (matchedNameOf (extract_owners_with_spacy ner it) (regridOwnerOf f)).isSome := rfl
    have hnames : extract_owners_with_spacy ner it = [] := hempty
    rw [hflag, hnames]
    rfl

/-- Witness for C6: the demonstration run exposes the selection fields. -/
theorem candidate_selection_witness :
    demoPayload.matched_name_from_id =
      matchedNameOf demoPayload.extracted_id_names demoPayload.regrid_owner :=
  ((candidate_selection [] "").2.2 demoDeed "ID TEXT" demoNer demoRegrid demoPayload
    (by rfl)).1

/-- Claim C8: only the first registry feature is ever consulted (responses
agreeing on status and first feature give identical results), the registry
owner is the first enhanced-ownership override when present else the base
owner, and the valuation fields default to 0 when absent. -/
theorem first_feature_authoritative (dt it : String)
    (ner : String → List (String × String)) (rg rg' : String → RegridResponse) :
    ((∀ q, (rg q).status_code = (rg' q).status_code ∧
        (rg q).features.head? = (rg' q).features.head?) →
      verifyCore dt it ner rg = verifyCore dt it ner rg') ∧
    (∀ p, verifyCore dt it ner rg = .ok p →
      ∃ addr f rest, re_search_address (pyUpper dt) = some addr ∧
        (rg addr).features = f :: rest ∧
        p.regrid_owner = ((f.enhanced_ownership.head?.bind EnhancedEntry.eo_owner).getD
          (f.fields.owner.getD "")) ∧
        p.valuation = Valuation.mk (f.fields.parval.getD 0) (f.fields.landval.getD 0)
          (f.fields.improvval.getD 0)) := by
  constructor
  · intro hagree
    unfold verifyCore
    cases haddr : re_search_address (pyUpper dt) with
    | none => rfl
    | some addr =>
      obtain ⟨hst, hhd⟩ := hagree addr
      dsimp only
      rw [hst]
      by_cases hs : (rg' addr).status_code ≠ 200
      · rw [if_pos hs, if_pos hs]
      · rw [if_neg hs, if_neg hs]
        cases hf : (rg addr).features with
        | nil =>
          rw [hf] at hhd
          cases hf' : (rg' addr).features with
          | nil => rfl
          | cons g gs => rw [hf'] at hhd; exact absurd hhd (by simp)
        | cons f fs =>
          rw [hf] at hhd
          cases hf' : (rg' addr).features with
          | nil => rw [hf'] at hhd; exact absurd hhd (by simp)
          | cons g gs =>
            rw [hf'] at hhd
            simp only [List.head?_cons, Option.some.injEq] at hhd
            rw [hhd]
  · intro p h
    obtain ⟨addr, f, rest, ha, _, hf, rfl⟩ := verifyCore_ok_inv h
    refine ⟨addr, f, rest, ha, hf, ?_, rfl⟩
    show regridOwnerOf f = _
    cases henh : f.enhanced_ownership with
    | nil => simp [regridOwnerOf, henh]
    | cons e es => cases heo : e.eo_owner <;> simp [regridOwnerOf, henh, heo]

/-- Witness for C8: the demonstration run exposes owner and valuation. -/
theorem first_feature_authoritative_witness :
    ∃ addr f rest, re_search_address (pyUpper demoDeed) = some addr ∧
      (demoRegrid addr).features = f :: rest ∧
      demoPayload.regrid_owner = ((f.enhanced_ownership.head?.bind EnhancedEntry.eo_owner).getD
        (f.fields.owner.getD "")) ∧
      demoPayload.valuation = Valuation.mk (f.fields.parval.getD 0) (f.fields.landval.getD 0)
        (f.fields.improvval.getD 0) :=
  (first_feature_authoritative demoDeed "ID TEXT" demoNer demoRegrid demoRegrid).2
    demoPayload (by rfl)

/-! ## The address locator: soundness, completeness, leftmost policy -/

/-- Membership in a descending range. -/
theorem mem_descRange {lo hi j : Nat} : j ∈ descRange lo hi ↔ lo ≤ j ∧ j ≤ hi := by
  simp only [descRange, List.mem_reverse, List.mem_range']
  constructor
  · rintro ⟨k, hk, rfl⟩
    omega
  · intro h
    exact ⟨j - lo, by omega, by omega⟩

/-- A prefix all of whose elements satisfy P is no longer than takeWhile P. -/
theorem length_le_takeWhile {α : Type} (P : α → Bool) :
    ∀ (l₁ l₂ : List α), l₁ <+: l₂ → (∀ c ∈ l₁, P c = true) →
      l₁.length ≤ (l₂.takeWhile P).length := by
  intro l₁
  induction l₁ with
  | nil => intro l₂ _ _; simp
  | cons a t ih =>
    intro l₂ hp hP
    obtain ⟨rest, rfl⟩ := hp
    have ha : P a = true := hP a (List.mem_cons_self _ _)
    simp only [List.cons_append, List.takeWhile_cons, ha, if_true, List.length_cons]
    exact Nat.succ_le_succ
      (ih (t ++ rest) (List.prefix_append t rest) fun c hc => hP c (List.mem_cons_of_mem _ hc))

/-- Taking at most the length of a prefix agrees with taking from the whole
list. -/
theorem take_of_prefix {α : Type} {l₁ l₂ : List α} (h : l₁ <+: l₂) {n : Nat}
    (hn : n ≤ l₁.length) : l₂.take n = l₁.take n := by
  conv_rhs => rw [List.prefix_iff_eq_take.mp h]
  rw [List.take_take, Nat.min_eq_left hn]

/-- Soundness of the street-type alternation. -/
theorem streetTypeEnd_sound {s : List Char} {p e : Nat} (h : streetTypeEnd s p = some e) :
    ∃ t ∈ STREET_TYPES, t.data <+: s.drop p ∧ e = p + t.data.length := by
  obtain ⟨t, htm, ht⟩ := List.exists_of_findSome?_eq_some h
  by_cases hpre : t.data.isPrefixOf (s.drop p) = true
  · rw [if_pos hpre] at ht
    exact ⟨t, htm, List.isPrefixOf_iff_prefix.mp hpre,
      ((Option.some.injEq _ _).mp ht).symm⟩
  · rw [if_neg hpre] at ht
    exact absurd ht (by simp)

/-- Completeness of the street-type alternation. -/
theorem streetTypeEnd_complete {s : List Char} {p : Nat} {t : String}
    (htm : t ∈ STREET_TYPES) (hpre : t.data <+: s.drop p) :
    (streetTypeEnd s p).isSome := by
  unfold streetTypeEnd
  refine List.findSome?_isSome_iff.mpr ⟨t, htm, ?_⟩
  rw [if_pos (List.isPrefixOf_iff_prefix.mpr hpre)]
  simp

/-- Soundness of the anchored matcher: a match starting at i covers a
substring of the text that satisfies the pattern. -/
theorem matchAt_sound {s : List Char} {i e : Nat} (h : matchAt s i = some e) :
    i ≤ e ∧ addrPattern ((s.drop i).take (e - i)) := by
  simp only [matchAt] at h
  obtain ⟨d, hdmem, hd⟩ := List.exists_of_findSome?_eq_some h
  obtain ⟨w, hwmem, hw⟩ := List.exists_of_findSome?_eq_some hd
  obtain ⟨m, hmmem, hm⟩ := List.exists_of_findSome?_eq_some hw
  obtain ⟨t, htmem, hpre, rfl⟩ := streetTypeEnd_sound hm
  rw [mem_descRange] at hdmem hwmem hmmem
  obtain ⟨hd2, hdmin⟩ := hdmem
  obtain ⟨hw1, hwnw⟩ := hwmem
  obtain ⟨hm1, hmnm⟩ := hmmem
  have hdnd : d ≤ ((s.drop i).takeWhile Char.isDigit).length :=
    le_trans hdmin (min_le_left _ _)
  have hd6 : d ≤ 6 := le_trans hdmin (min_le_right _ _)
  have hlen_d : d ≤ (s.drop i).length :=
    le_trans hdnd (List.takeWhile_prefix _).length_le
  have hlen_w : w ≤ (s.drop (i + d)).length :=
    le_trans hwnw (List.takeWhile_prefix _).length_le
  have hlen_m : m ≤ (s.drop (i + d + w)).length :=
    le_trans hmnm (List.takeWhile_prefix _).length_le
  have lds : ((s.drop i).take d).length = d := by
    rw [List.length_take, Nat.min_eq_left hlen_d]
  have lws : ((s.drop (i + d)).take w).length = w := by
    rw [List.length_take, Nat.min_eq_left hlen_w]
  have lms : ((s.drop (i + d + w)).take m).length = m := by
    rw [List.length_take, Nat.min_eq_left hlen_m]
  obtain ⟨tail, htail⟩ := hpre
  refine ⟨by omega, ?_⟩
  have harith : i + d + w + m + t.data.length - i = d + w + m + t.data.length := by omega
  rw [harith]
  have E : s.drop i =
      (((s.drop i).take d ++ (s.drop (i + d)).take w ++ (s.drop (i + d + w)).take m ++
        t.data) ++ tail) := by
    conv_lhs => rw [← List.take_append_drop d (s.drop i)]
    rw [List.drop_drop]
    conv_lhs => rw [← List.take_append_drop w (s.drop (i + d))]
    rw [List.drop_drop]
    conv_lhs => rw [← List.take_append_drop m (s.drop (i + d + w))]
    rw [List.drop_drop]
    rw [← htail]
    simp [List.append_assoc]
  have hlenbig : ((s.drop i).take d ++ (s.drop (i + d)).take w ++
      (s.drop (i + d + w)).take m ++ t.data).length = d + w + m + t.data.length := by
    simp only [List.length_append, lds, lws, lms]
  refine ⟨(s.drop i).take d, (s.drop (i + d)).take w, (s.drop (i + d + w)).take m, t,
    ?_, ?_, ?_, ?_, ?_, ?_, ?_, ?_, htmem⟩
  · conv_lhs => rw [E]
    rw [List.take_left' hlenbig]
  · rw [lds]; exact hd2
  · rw [lds]; exact hd6
  · intro c hc
    have hds_eq : (s.drop i).take d = ((s.drop i).takeWhile Char.isDigit).take d :=
      take_of_prefix (List.takeWhile_prefix _) hdnd
    rw [hds_eq] at hc
    exact List.mem_takeWhile_imp (List.take_subset _ _ hc)
  · intro hnil
    rw [hnil] at lws
    simp at lws
    omega
  · intro c hc
    have hws_eq : (s.drop (i + d)).take w = ((s.drop (i + d)).takeWhile isPySpace).take w :=
      take_of_prefix (List.takeWhile_prefix _) hwnw
    rw [hws_eq] at hc
    exact List.mem_takeWhile_imp (List.take_subset _ _ hc)
  · intro hnil
    rw [hnil] at lms
    simp at lms
    omega
  · intro c hc
    have hms_eq : (s.drop (i + d + w)).take m =
        ((s.drop (i + d + w)).takeWhile isAddrChar).take m :=
      take_of_prefix (List.takeWhile_prefix _) hmnm
    rw [hms_eq] at hc
    exact List.mem_takeWhile_imp (List.take_subset _ _ hc)

/-- Completeness of the anchored matcher: whenever some decomposition of
the pattern starts at i, the backtracking engine finds a match at i. -/
theorem matchAt_complete {s : List Char} {i : Nat} (h : addrPatternAt s i) :
    (matchAt s i).isSome := by
  obtain ⟨r, hpre, ds, ws, ms, t, rfl, hds2, hds6, hdsdig, hwsne, hwssp, hmsne, hmscls,
    htmem⟩ := h
  obtain ⟨tail, htail⟩ := hpre
  have E : s.drop i = ds ++ (ws ++ (ms ++ (t.data ++ tail))) := by
    rw [← htail]
    simp [List.append_assoc]
  have E1 : s.drop (i + ds.length) = ws ++ (ms ++ (t.data ++ tail)) := by
    have h1 : s.drop (i + ds.length) = (s.drop i).drop ds.length :=
      (List.drop_drop _ _ _).symm
    rw [h1, E, List.drop_left]
  have E2 : s.drop (i + ds.length + ws.length) = ms ++ (t.data ++ tail) := by
    have h1 : s.drop (i + ds.length + ws.length) = (s.drop (i + ds.length)).drop ws.length :=
      (List.drop_drop _ _ _).symm
    rw [h1, E1, List.drop_left]
  have E3 : s.drop (i + ds.length + ws.length + ms.length) = t.data ++ tail := by
    have h1 : s.drop (i + ds.length + ws.length + ms.length) =
        (s.drop (i + ds.length + ws.length)).drop ms.length := (List.drop_drop _ _ _).symm
    rw [h1, E2, List.drop_left]
  have hd_nd : ds.length ≤ ((s.drop i).takeWhile Char.isDigit).length :=
    length_le_takeWhile _ ds _ ⟨ws ++ (ms ++ (t.data ++ tail)), E.symm⟩ hdsdig
  have hw_nw : ws.length ≤ ((s.drop (i + ds.length)).takeWhile isPySpace).length :=
    length_le_takeWhile _ ws _ ⟨ms ++ (t.data ++ tail), E1.symm⟩ hwssp
  have hm_nm : ms.length ≤
      ((s.drop (i + ds.length + ws.length)).takeWhile isAddrChar).length :=
    length_le_takeWhile _ ms _ ⟨t.data ++ tail, E2.symm⟩ hmscls
  simp only [matchAt]
  refine List.findSome?_isSome_iff.mpr ⟨ds.length, ?_, ?_⟩
  · rw [mem_descRange]
    exact ⟨hds2, le_min hd_nd hds6⟩
  · dsimp only
    refine List.findSome?_isSome_iff.mpr ⟨ws.length, ?_, ?_⟩
    · rw [mem_descRange]
      exact ⟨List.length_pos.mpr hwsne, hw_nw⟩
    · dsimp only
      refine List.findSome?_isSome_iff.mpr ⟨ms.length, ?_, ?_⟩
      · rw [mem_descRange]
        exact ⟨List.length_pos.mpr hmsne, hm_nm⟩
      · exact streetTypeEnd_complete htmem ⟨tail, E3.symm⟩

/-- A string matching the pattern is nonempty. -/
theorem addrPattern_ne_nil {r : List Char} (h : addrPattern r) : r ≠ [] := by
  obtain ⟨ds, ws, ms, t, rfl, hds2, -⟩ := h
  intro hnil
  have := congrArg List.length hnil
  simp only [List.length_append, List.length_nil] at this
  omega

/-- No pattern occurrence can start at or beyond the end of the text. -/
theorem not_addrPatternAt_of_le {s : List Char} {i : Nat} (h : s.length ≤ i) :
    ¬ addrPatternAt s i := by
  rintro ⟨r, hpre, hpat⟩
  rw [List.drop_eq_nil_of_le h] at hpre
  exact addrPattern_ne_nil hpat (List.prefix_nil.mp hpre)

/-- The position scan returns the leftmost match. -/
theorem searchFrom_some {s : List Char} :
    ∀ (fuel i j e : Nat), searchFrom s fuel i = some (j, e) →
      i ≤ j ∧ matchAt s j = some e ∧ ∀ k, i ≤ k → k < j → matchAt s k = none := by
  intro fuel
  induction fuel with
  | zero => intro i j e h; simp [searchFrom] at h
  | succ n ih =>
    intro i j e h
    unfold searchFrom at h
    cases hm : matchAt s i with
    | some e' =>
      rw [hm] at h
      cases h
      exact ⟨le_refl _, hm, fun k hk1 hk2 => absurd (lt_of_le_of_lt hk1 hk2) (lt_irrefl _)⟩
    | none =>
      rw [hm] at h
      obtain ⟨h1, h2, h3⟩ := ih (i + 1) j e h
      refine ⟨by omega, h2, fun k hk1 hk2 => ?_⟩
      by_cases hk : k = i
      · subst hk; exact hm
      · exact h3 k (by omega) hk2

/-- An exhausted position scan means no position in range matches. -/
theorem searchFrom_none {s : List Char} :
    ∀ (fuel i : Nat), searchFrom s fuel i = none →
      ∀ k, i ≤ k → k < i + fuel → matchAt s k = none := by
  intro fuel
  induction fuel with
  | zero => intro i _ k hk1 hk2; omega
  | succ n ih =>
    intro i h k hk1 hk2
    unfold searchFrom at h
    cases hm : matchAt s i with
    | some e' => rw [hm] at h; exact absurd h (by simp)
    | none =>
      rw [hm] at h
      by_cases hk : k = i
      · subst hk; exact hm
      · exact ih (i + 1) h k (by omega) (by omega)

/-- Claim C4 (amended): the locator returns the leftmost substring of the
upper-cased deed text matching: 2 to 6 digits, one or more whitespace
characters, a nonempty run of characters drawn from uppercase letters,
digits, whitespace and hyphen (which need not contain a complete
alphanumeric token), then an occurrence of one of the street-type strings
(which need not be a whole word); when no such substring exists the
pipeline answers AddressNotFound with no registry lookup (the result does
not depend on the registry client). -/
theorem address_locator (u : String) :
    (∀ r, re_search_address u = some r →
      ∃ i, r.data <+: u.data.drop i ∧ addrPattern r.data ∧
        ∀ i' < i, ¬ addrPatternAt u.data i') ∧
    (re_search_address u = none ↔ ∀ i, ¬ addrPatternAt u.data i) ∧
    (∀ (it : String) (ner : String → List (String × String))
      (rg rg' : String → RegridResponse),
      re_search_address (pyUpper u) = none →
      verifyCore u it ner rg = .errorResp 400 false "Address not found in deed text" ∧
      verifyCore u it ner rg = verifyCore u it ner rg') := by
  refine ⟨?_, ⟨?_, ?_⟩, ?_⟩
  · intro r hr
    unfold re_search_address at hr
    cases hsf : searchFrom u.data (u.data.length + 1) 0 with
    | none => rw [hsf] at hr; exact absurd hr (by simp)
    | some pe =>
      obtain ⟨j, e⟩ := pe
      rw [hsf] at hr
      dsimp only at hr
      have hrdata : r.data = (u.data.drop j).take (e - j) := by
        have := (Option.some.injEq _ _).mp hr
        rw [← this]
      obtain ⟨-, h2, h3⟩ := searchFrom_some _ _ _ _ hsf
      obtain ⟨-, hpat⟩ := matchAt_sound h2
      refine ⟨j, ?_, ?_, ?_⟩
      · rw [hrdata]; exact List.take_prefix _ _
      · rw [hrdata]; exact hpat
      · intro i' hi' hp
        have := matchAt_complete hp
        rw [h3 i' (Nat.zero_le _) hi'] at this
        exact absurd this (by simp)
  · intro hnone i hpat
    by_cases hi : i ≤ u.data.length
    · unfold re_search_address at hnone
      cases hsf : searchFrom u.data (u.data.length + 1) 0 with
      | some pe => rw [hsf] at hnone; obtain ⟨j, e⟩ := pe; exact absurd hnone (by simp)
      | none =>
        have hm := searchFrom_none _ _ hsf i (Nat.zero_le _) (by omega)
        have := matchAt_complete hpat
        rw [hm] at this
        exact absurd this (by simp)
    · exact not_addrPatternAt_of_le (by omega) hpat
  · intro hall
    unfold re_search_address
    cases hsf : searchFrom u.data (u.data.length + 1) 0 with
    | none => rfl
    | some pe =>
      obtain ⟨j, e⟩ := pe
      obtain ⟨-, h2, -⟩ := searchFrom_some _ _ _ _ hsf
      obtain ⟨-, hpat⟩ := matchAt_sound h2
      exact absurd (⟨_, List.take_prefix _ _, hpat⟩ : addrPatternAt u.data j) (hall j)
  · intro it ner rg rg' h
    constructor
    · unfold verifyCore; rw [h]
    · unfold verifyCore; rw [h]

/-- Witness for C4 (amended) at a concrete deed text. -/
theorem address_locator_witness :
    ∃ i, (String.data "123 MAIN ST") <+: (String.data "123 MAIN ST").drop i ∧
      addrPattern (String.data "123 MAIN ST") ∧
      ∀ i' < i, ¬ addrPatternAt (String.data "123 MAIN ST") i' :=
  (address_locator "123 MAIN ST").1 "123 MAIN ST" (by rfl)

/-- Counterexample to C4 as stated: the claim requires one or more
space-separated alphanumeric-or-hyphen tokens between the house number and
the street type, but the regex middle class also matches pure whitespace:
on the deed text 123--ST (two spaces), the code extracts the address
123--ST even though no substring with an actual middle token exists, and
the pipeline goes on to call the registry instead of failing with
AddressNotFound. -/
theorem address_locator_counterexample :
    re_search_address "123  ST" = some "123  ST" ∧
    claimPatternAnywhere "123  ST" = false ∧
    verifyCore "123  st" "ID TEXT" (fun _ => []) (fun _ => RegridResponse.mk 500 []) =
      .errorResp 500 false "Failed to fetch parcel from Regrid" := by
  exact ⟨by rfl, by rfl, by rfl⟩

end VerifyDocs
